import Mathlib

/-!
Verification of the WC-Album ingestion pipeline.

The definitions below are a shallow embedding of the JavaScript sources
`src/db.js`, `src/ingest.js`, `src/ingestCSV.js` (which also holds the
Sportmonks client with `apiRequest`) and `src/config.js`.

Conventions of the embedding:
- JavaScript values that may be `null`/`undefined`/absent are `Option`s.
- JavaScript truthiness is modelled explicitly: the empty string and the
  number 0 are falsy, any object is truthy.
- Dates are integer timestamps; `new Date()` becomes an explicit `now`
  parameter, `new Date(0)` becomes `0`.
- MongoDB collections are lists of documents; `updateOne` with `upsert`
  replaces the first document with a matching primary key or appends.
- Asynchronous calls that can reject are `Except String` computations; a
  network client is an oracle record of such computations.
-/

namespace WCAlbum

/-! ## JavaScript truthiness helpers -/

/-- Truthiness of an optional string: absent and the empty string are falsy. -/
def strTruthy : Option String → Bool
  | none => false
  | some s => !(s == "")

/-- Truthiness of an optional number: absent and 0 are falsy. -/
def natTruthy : Option Nat → Bool
  | none => false
  | some n => !(n == 0)

/-- JavaScript `a || b` on optional strings. -/
def jsOrStr (a b : Option String) : Option String :=
  if strTruthy a then a else b

/-- JavaScript `a || null` on optional strings: a falsy value becomes null. -/
def jsStrOrNull (a : Option String) : Option String :=
  if strTruthy a then a else none

/-- JavaScript `a || null` on optional numbers: a falsy value becomes null. -/
def jsNatOrNull (a : Option Nat) : Option Nat :=
  if natTruthy a then a else none

/-- JavaScript `a || d` on an optional string with a (truthy) default string. -/
def jsOrDefault (a : Option String) (d : String) : String :=
  if strTruthy a then a.getD "" else d

/-! ## Data model of `src/db.js` -/

/-- A normalized country reference `{id, name, code}`. -/
structure CountryRef where
  id : Option Nat
  name : Option String
  code : Option String
deriving DecidableEq, Repr

/-- A normalized current-club reference `{id, name}`. -/
structure ClubRef where
  id : Option Nat
  name : Option String
deriving DecidableEq, Repr

/-- Input accepted by `upsertTeam` (`teamData`). -/
structure TeamInput where
  _id : Option String := none
  provider : Option String := none
  providerId : String
  name : Option String := none
  type : Option String := none
  country : Option CountryRef := none
  image_path : Option String := none
deriving DecidableEq, Repr

/-- The team document written by `upsertTeam`. -/
structure TeamDoc where
  _id : String
  provider : String
  providerId : String
  name : Option String
  type : Option String
  country : CountryRef
  image_path : Option String
  updatedAt : Nat
deriving DecidableEq, Repr

/-- Input accepted by `upsertPlayer` (`playerData`). -/
structure PlayerInput where
  _id : Option String := none
  provider : Option String := none
  providerId : String
  name : Option String := none
  position : Option String := none
  nationality : Option CountryRef := none
  image_path : Option String := none
  currentClub : Option ClubRef := none
  currentClubCountry : Option CountryRef := none
deriving DecidableEq, Repr

/-- The player document written by `upsertPlayer`. -/
structure PlayerDoc where
  _id : String
  provider : String
  providerId : String
  name : Option String
  position : Option String
  nationality : CountryRef
  image_path : Option String
  currentClub : ClubRef
  currentClubCountry : CountryRef
  updatedAt : Nat
deriving DecidableEq, Repr

/-- Input accepted by `upsertSquad` (`squadData`). -/
structure SquadInput where
  _id : Option String := none
  provider : Option String := none
  teamId : String
  teamName : Option String := none
  playerIds : Option (List String) := none
deriving DecidableEq, Repr

/-- The squad document written by `upsertSquad`. -/
structure SquadDoc where
  _id : String
  provider : String
  teamId : String
  teamName : Option String
  playerIds : List String
  fetchedAt : Nat
deriving DecidableEq, Repr

/-- Input accepted by `upsertCountry` (`countryData`). -/
structure CountryInput where
  providerId : String
  name : Option String := none
  code : Option String := none
deriving DecidableEq, Repr

/-- The country document written by `upsertCountry`. -/
structure CountryDoc where
  _id : String
  provider : String
  providerId : String
  name : Option String
  code : Option String
  updatedAt : Nat
deriving DecidableEq, Repr

/-- The document store: the three primary collections plus the country cache. -/
structure DB where
  teams : List TeamDoc
  players : List PlayerDoc
  squads : List SquadDoc
  countries : List CountryDoc
deriving DecidableEq, Repr

/-- The empty store. -/
def emptyDB : DB := ⟨[], [], [], []⟩

/-- `updateOne({_id}, {$set: doc}, {upsert: true})`: replace the first
document with the same primary key, or append when none matches. -/
def upsertById (getId : α → String) (doc : α) : List α → List α
  | [] => [doc]
  | d :: ds => if getId d = getId doc then doc :: ds else d :: upsertById getId doc ds

/-- The deterministic team identifier computed by `upsertTeam` when the
caller supplies none. -/
def teamDefaultId (providerId : String) : String :=
  "team:sportmonks:" ++ providerId

/-- The team document built by `upsertTeam` from its input. -/
def mkTeamDoc (now : Nat) (t : TeamInput) : TeamDoc :=
  { _id := jsOrDefault t._id (teamDefaultId t.providerId)
    provider := jsOrDefault t.provider "sportmonks"
    providerId := t.providerId
    name := jsStrOrNull t.name
    type := jsStrOrNull t.type
    country := t.country.getD ⟨none, none, none⟩
    image_path := jsStrOrNull t.image_path
    updatedAt := now }

/-- `upsertTeam` from `src/db.js`. -/
def upsertTeam (now : Nat) (t : TeamInput) (db : DB) : DB :=
  { db with teams := upsertById TeamDoc._id (mkTeamDoc now t) db.teams }

/-- The deterministic player identifier computed by `upsertPlayer` when the
caller supplies none. -/
def playerDefaultId (providerId : String) : String :=
  "player:sportmonks:" ++ providerId

/-- The player document built by `upsertPlayer` from its input. -/
def mkPlayerDoc (now : Nat) (p : PlayerInput) : PlayerDoc :=
  { _id := jsOrDefault p._id (playerDefaultId p.providerId)
    provider := jsOrDefault p.provider "sportmonks"
    providerId := p.providerId
    name := jsStrOrNull p.name
    position := jsStrOrNull p.position
    nationality := p.nationality.getD ⟨none, none, none⟩
    image_path := jsStrOrNull p.image_path
    currentClub := p.currentClub.getD ⟨none, none⟩
    currentClubCountry := p.currentClubCountry.getD ⟨none, none, none⟩
    updatedAt := now }

/-- `upsertPlayer` from `src/db.js`. -/
def upsertPlayer (now : Nat) (p : PlayerInput) (db : DB) : DB :=
  { db with players := upsertById PlayerDoc._id (mkPlayerDoc now p) db.players }

/-- The deterministic squad identifier computed by `upsertSquad` when the
caller supplies none. -/
def squadDefaultId (teamId : String) : String :=
  "squad:sportmonks:" ++ teamId ++ ":current"

/-- The squad document built by `upsertSquad` from its input. -/
def mkSquadDoc (now : Nat) (s : SquadInput) : SquadDoc :=
  { _id := jsOrDefault s._id (squadDefaultId s.teamId)
    provider := jsOrDefault s.provider "sportmonks"
    teamId := s.teamId
    teamName := jsStrOrNull s.teamName
    playerIds := s.playerIds.getD []
    fetchedAt := now }

/-- `upsertSquad` from `src/db.js`. -/
def upsertSquad (now : Nat) (s : SquadInput) (db : DB) : DB :=
  { db with squads := upsertById SquadDoc._id (mkSquadDoc now s) db.squads }

/-- The deterministic country identifier computed by `upsertCountry`. -/
def countryDefaultId (providerId : String) : String :=
  "country:sportmonks:" ++ providerId

/-- The country document built by `upsertCountry` from its input. -/
def mkCountryDoc (now : Nat) (c : CountryInput) : CountryDoc :=
  { _id := countryDefaultId c.providerId
    provider := "sportmonks"
    providerId := c.providerId
    name := jsStrOrNull c.name
    code := jsStrOrNull c.code
    updatedAt := now }

/-- `upsertCountry` from `src/db.js`. -/
def upsertCountry (now : Nat) (c : CountryInput) (db : DB) : DB :=
  { db with countries := upsertById CountryDoc._id (mkCountryDoc now c) db.countries }

/-! ## Basic store lemmas -/

theorem upsertById_map_id_of_mem (getId : α → String) (doc : α) :
    ∀ l : List α, getId doc ∈ l.map getId →
      (upsertById getId doc l).map getId = l.map getId := by
  intro l
  induction l with
  | nil => simp
  | cons d ds ih =>
    intro hmem
    by_cases h : getId d = getId doc
    · simp [upsertById, h]
    · simp only [List.map_cons, List.mem_cons] at hmem
      rcases hmem with h1 | h2
      · exact absurd h1.symm h
      · simp [upsertById, h, ih h2]

theorem upsertById_map_id_of_not_mem (getId : α → String) (doc : α) :
    ∀ l : List α, getId doc ∉ l.map getId →
      (upsertById getId doc l).map getId = l.map getId ++ [getId doc] := by
  intro l
  induction l with
  | nil => simp [upsertById]
  | cons d ds ih =>
    intro hmem
    simp only [List.map_cons, List.mem_cons] at hmem
    push_neg at hmem
    have hne : getId d ≠ getId doc := fun h => hmem.1 h.symm
    simp [upsertById, hne, ih hmem.2]

theorem upsertById_nodup (getId : α → String) (doc : α) (l : List α)
    (h : (l.map getId).Nodup) : ((upsertById getId doc l).map getId).Nodup := by
  by_cases hmem : getId doc ∈ l.map getId
  · rw [upsertById_map_id_of_mem getId doc l hmem]; exact h
  · rw [upsertById_map_id_of_not_mem getId doc l hmem]
    rw [List.nodup_append]
    refine ⟨h, List.nodup_singleton _, ?_⟩
    intro a ha hb
    rw [List.mem_singleton] at hb
    exact hmem (hb ▸ ha)

/-- With distinct primary keys, after an upsert the documents carrying the
upserted key are exactly the new document. -/
theorem upsertById_filter (getId : α → String) (doc : α) [DecidableEq α] :
    ∀ l : List α, (l.map getId).Nodup →
      (upsertById getId doc l).filter (fun d => getId d = getId doc) = [doc] := by
  intro l
  induction l with
  | nil => simp [upsertById]
  | cons d ds ih =>
    intro hnd
    simp only [List.map_cons, List.nodup_cons] at hnd
    by_cases h : getId d = getId doc
    · have hnone : ds.filter (fun x => getId x = getId doc) = [] := by
        rw [List.filter_eq_nil_iff]
        intro x hx
        simp only [decide_eq_true_eq]
        intro hxe
        exact hnd.1 (by rw [h, ← hxe]; exact List.mem_map.mpr ⟨x, hx, rfl⟩)
      simp [upsertById, h, List.filter_cons, hnone]
    · simp [upsertById, h, List.filter_cons, ih hnd.2]

/-- A document survives upserts keyed on other identifiers. -/
theorem upsertById_mem_preserve (getId : α → String) (doc d : α) (l : List α)
    (hne : getId d ≠ getId doc) (hmem : d ∈ l) : d ∈ upsertById getId doc l := by
  induction l with
  | nil => cases hmem
  | cons x xs ih =>
    by_cases h : getId x = getId doc
    · rcases List.mem_cons.mp hmem with rfl | h2
      · exact absurd h hne
      · simp [upsertById, h, List.mem_cons, h2]
    · rcases List.mem_cons.mp hmem with rfl | h2
      · simp [upsertById, h]
      · simp [upsertById, h, ih h2]

/-- The upserted document is a member of the resulting collection. -/
theorem upsertById_mem_self (getId : α → String) (doc : α) (l : List α) :
    doc ∈ upsertById getId doc l := by
  induction l with
  | nil => simp [upsertById]
  | cons x xs ih =>
    by_cases h : getId x = getId doc <;> simp [upsertById, h, ih]

/-- Any member of the collection after an upsert is the new document or an
old member. -/
theorem mem_upsertById (getId : α → String) (doc d : α) (l : List α)
    (h : d ∈ upsertById getId doc l) : d = doc ∨ d ∈ l := by
  induction l with
  | nil => simpa [upsertById] using h
  | cons x xs ih =>
    by_cases hx : getId x = getId doc
    · simp only [upsertById, hx, if_pos] at h
      rcases List.mem_cons.mp h with rfl | h2
      · exact Or.inl rfl
      · exact Or.inr (List.mem_cons_of_mem x h2)
    · simp only [upsertById, hx, if_neg, ite_false] at h
      rcases List.mem_cons.mp h with rfl | h2
      · exact Or.inr (List.mem_cons_self d xs)
      · rcases ih h2 with h3 | h3
        · exact Or.inl h3
        · exact Or.inr (List.mem_cons_of_mem x h3)

/-- Upserting twice leaves exactly one document under the (shared) key of the
second document, namely the second document itself. -/
theorem upsertById_twice (getId : α → String) [DecidableEq α] (d1 d2 : α) (l : List α)
    (h : (l.map getId).Nodup) :
    (upsertById getId d2 (upsertById getId d1 l)).filter (fun d => getId d = getId d2) = [d2] :=
  upsertById_filter getId d2 _ (upsertById_nodup getId d1 l h)

/-- The deterministic identifier shape `entity:provider:key` from the spec. -/
def idOfForm (entity provider key : String) : String :=
  entity ++ ":" ++ provider ++ ":" ++ key

end WCAlbum

namespace WCAlbum

/-- Claim C1: calling `upsertTeam`, `upsertPlayer` or `upsertSquad` twice with
the same normalized input leaves exactly one stored document under the
deterministic key, that key is identical for both calls, and the final
document is exactly the one built from the second call (full overwrite,
timestamp included, no field-level merge). -/
theorem claim_C1_upsert_idempotent (now1 now2 : Nat)
    (t : TeamInput) (p : PlayerInput) (s : SquadInput) (db : DB)
    (ht : (db.teams.map TeamDoc._id).Nodup)
    (hp : (db.players.map PlayerDoc._id).Nodup)
    (hs : (db.squads.map SquadDoc._id).Nodup) :
    ((mkTeamDoc now1 t)._id = (mkTeamDoc now2 t)._id ∧
      (upsertTeam now2 t (upsertTeam now1 t db)).teams.filter
        (fun d => d._id = (mkTeamDoc now2 t)._id) = [mkTeamDoc now2 t]) ∧
    ((mkPlayerDoc now1 p)._id = (mkPlayerDoc now2 p)._id ∧
      (upsertPlayer now2 p (upsertPlayer now1 p db)).players.filter
        (fun d => d._id = (mkPlayerDoc now2 p)._id) = [mkPlayerDoc now2 p]) ∧
    ((mkSquadDoc now1 s)._id = (mkSquadDoc now2 s)._id ∧
      (upsertSquad now2 s (upsertSquad now1 s db)).squads.filter
        (fun d => d._id = (mkSquadDoc now2 s)._id) = [mkSquadDoc now2 s]) := by
  refine ⟨⟨rfl, ?_⟩, ⟨rfl, ?_⟩, ⟨rfl, ?_⟩⟩
  · exact upsertById_twice TeamDoc._id (mkTeamDoc now1 t) (mkTeamDoc now2 t) db.teams ht
  · exact upsertById_twice PlayerDoc._id (mkPlayerDoc now1 p) (mkPlayerDoc now2 p) db.players hp
  · exact upsertById_twice SquadDoc._id (mkSquadDoc now1 s) (mkSquadDoc now2 s) db.squads hs

/-- Witness for claim C1: a concrete double upsert of each entity on the
empty store. -/
theorem claim_C1_upsert_idempotent_witness :
    ((mkTeamDoc 1 { providerId := "18710" })._id = (mkTeamDoc 2 { providerId := "18710" })._id ∧
      (upsertTeam 2 { providerId := "18710" }
          (upsertTeam 1 { providerId := "18710" } emptyDB)).teams.filter
        (fun d => d._id = (mkTeamDoc 2 { providerId := "18710" })._id) =
        [mkTeamDoc 2 { providerId := "18710" }]) ∧
    ((mkPlayerDoc 1 { providerId := "77" })._id = (mkPlayerDoc 2 { providerId := "77" })._id ∧
      (upsertPlayer 2 { providerId := "77" }
          (upsertPlayer 1 { providerId := "77" } emptyDB)).players.filter
        (fun d => d._id = (mkPlayerDoc 2 { providerId := "77" })._id) =
        [mkPlayerDoc 2 { providerId := "77" }]) ∧
    ((mkSquadDoc 1 { teamId := "18710" })._id = (mkSquadDoc 2 { teamId := "18710" })._id ∧
      (upsertSquad 2 { teamId := "18710" }
          (upsertSquad 1 { teamId := "18710" } emptyDB)).squads.filter
        (fun d => d._id = (mkSquadDoc 2 { teamId := "18710" })._id) =
        [mkSquadDoc 2 { teamId := "18710" }]) :=
  claim_C1_upsert_idempotent 1 2 { providerId := "18710" } { providerId := "77" }
    { teamId := "18710" } emptyDB (by simp [emptyDB]) (by simp [emptyDB]) (by simp [emptyDB])

/-! ## Record normalizer of `src/ingest.js` -/

/-- A provider country payload as delivered by the API. -/
structure CountryPayload where
  id : Option Nat := none
  name : Option String := none
  official_name : Option String := none
  iso2 : Option String := none
  fifa_name : Option String := none
deriving DecidableEq, Repr

/-- Membership pivot data carrying optional contract dates (as timestamps). -/
structure Pivot where
  start : Option Int := none
  end_ : Option Int := none
deriving DecidableEq, Repr

/-- One entry of a player's historical `teams` array. -/
structure Membership where
  id : Option Nat := none
  name : Option String := none
  type : Option String := none
  pivot : Option Pivot := none
  country : Option CountryPayload := none
  country_id : Option Nat := none
deriving DecidableEq, Repr

/-- A provider player payload. -/
structure PlayerPayload where
  id : Nat
  display_name : Option String := none
  common_name : Option String := none
  firstname : Option String := none
  lastname : Option String := none
  image_path : Option String := none
  nationality_id : Option Nat := none
  nationality : Option CountryPayload := none
  teams : Option (List Membership) := none
deriving DecidableEq, Repr

/-- `Array.prototype.join` with a single-space separator. -/
def joinSpace : List String → String
  | [] => ""
  | [s] => s
  | s :: rest => s ++ " " ++ joinSpace rest

/-- `[a, b].filter(Boolean)` for optional strings: keep the truthy ones. -/
def truthyParts (xs : List (Option String)) : List String :=
  (xs.filter strTruthy).map (fun o => o.getD "")

/-- `getPlayerName` from `src/ingest.js`. -/
def getPlayerName (player : Option PlayerPayload) : Option String :=
  match player with
  | none => none
  | some p =>
      jsStrOrNull (jsOrStr p.display_name (jsOrStr p.common_name
        (some (joinSpace (truthyParts [p.firstname, p.lastname])))))

/-- `extractCountryInfo` from `src/ingest.js`. -/
def extractCountryInfo (country : Option CountryPayload) : CountryRef :=
  match country with
  | none => ⟨none, none, none⟩
  | some c =>
      { id := jsNatOrNull c.id
        name := jsStrOrNull (jsOrStr c.name c.official_name)
        code := jsStrOrNull (jsOrStr c.iso2 c.fifa_name) }

/-- The membership filter of `findCurrentClub`: type `domestic`, type `club`,
or no type at all. -/
def membIsClub (t : Membership) : Bool :=
  t.type == some "domestic" || t.type == some "club" || !strTruthy t.type

/-- A membership is active when its pivot has no end date or the end date
lies in the future. -/
def pivotActive (now : Int) (t : Membership) : Bool :=
  match t.pivot with
  | none => true
  | some pv =>
      match pv.end_ with
      | none => true
      | some e => decide (now < e)

/-- The start-date sort key: the pivot start date, defaulting to the epoch. -/
def startKey (t : Membership) : Int :=
  match t.pivot with
  | none => 0
  | some pv => pv.start.getD 0

/-- The comparator passed to `sort` inside `findCurrentClub`. -/
def clubCmp (now : Int) (a b : Membership) : Int :=
  if pivotActive now a && !pivotActive now b then -1
  else if !pivotActive now a && pivotActive now b then 1
  else startKey b - startKey a

/-- The ordering induced by `clubCmp`: `a` may be placed before `b`. -/
def clubLe (now : Int) (a b : Membership) : Prop :=
  clubCmp now a b ≤ 0

instance (now : Int) : DecidableRel (clubLe now) :=
  fun a b => inferInstanceAs (Decidable (clubCmp now a b ≤ 0))

/-- `findCurrentClub` from `src/ingest.js`: filter to club-like memberships,
stable-sort by the comparator, return the first element or null. -/
def findCurrentClub (now : Int) (teams : Option (List Membership)) : Option Membership :=
  match teams with
  | none => none
  | some ts => (List.insertionSort (clubLe now) (ts.filter membIsClub)).head?

theorem clubLe_iff (now : Int) (a b : Membership) :
    clubLe now a b ↔
      (pivotActive now a = true ∧ pivotActive now b = false) ∨
      (pivotActive now a = pivotActive now b ∧ startKey b ≤ startKey a) := by
  unfold clubLe clubCmp
  cases ha : pivotActive now a <;> cases hb : pivotActive now b <;> simp

instance (now : Int) : IsTotal Membership (clubLe now) := by
  constructor
  intro a b
  rw [clubLe_iff, clubLe_iff]
  cases ha : pivotActive now a <;> cases hb : pivotActive now b <;> simp <;> omega

instance (now : Int) : IsTrans Membership (clubLe now) := by
  constructor
  intro a b c hab hbc
  rw [clubLe_iff] at hab hbc ⊢
  cases ha : pivotActive now a <;> cases hb : pivotActive now b <;>
    cases hc : pivotActive now c <;> simp_all <;> omega

/-- When `findCurrentClub` returns a membership, it is a member of the
filtered list and ranks no worse than every filtered membership. -/
theorem findCurrentClub_head_min (now : Int) (ts : List Membership) (c : Membership)
    (h : findCurrentClub now (some ts) = some c) :
    c ∈ ts.filter membIsClub ∧ ∀ t ∈ ts.filter membIsClub, clubLe now c t := by
  simp only [findCurrentClub] at h
  cases hs : List.insertionSort (clubLe now) (ts.filter membIsClub) with
  | nil => rw [hs] at h; simp at h
  | cons x tail =>
    rw [hs] at h
    simp only [List.head?_cons, Option.some.injEq] at h
    subst h
    have hperm := List.perm_insertionSort (clubLe now) (ts.filter membIsClub)
    rw [hs] at hperm
    have hsorted := List.sorted_insertionSort (clubLe now) (ts.filter membIsClub)
    rw [hs] at hsorted
    constructor
    · exact hperm.mem_iff.mp (List.mem_cons_self _ _)
    · intro t ht
      rcases List.mem_cons.mp (hperm.mem_iff.mpr ht) with rfl | htail
      · rw [clubLe_iff]; right; exact ⟨rfl, le_refl _⟩
      · exact List.rel_of_sorted_cons hsorted t htail

/-- A membership with no end date at all (absent pivot or absent end). -/
def pivotNoEnd (t : Membership) : Bool :=
  match t.pivot with
  | none => true
  | some pv => pv.end_.isNone

theorem pivotActive_of_noEnd (now : Int) (t : Membership) (h : pivotNoEnd t = true) :
    pivotActive now t = true := by
  cases hp : t.pivot with
  | none => simp [pivotActive, hp]
  | some pv =>
    cases he : pv.end_ with
    | none => simp [pivotActive, hp, he]
    | some e => simp [pivotNoEnd, hp, he] at h

theorem membIsClub_of_type (t : Membership)
    (h : t.type = some "club" ∨ t.type = some "domestic") : membIsClub t = true := by
  unfold membIsClub
  rcases h with h | h <;> simp [h]

/-- Claim C2: `findCurrentClub` keeps only club-like memberships, ranks the
still-active ones first and, within a tier, later start dates first; hence
an active club membership always beats ended ones, among all-ended club
memberships the latest start wins, and an empty filtered list yields null. -/
theorem claim_C2_findCurrentClub :
    (∀ (now : Int) (ts : List Membership) (t : Membership), t ∈ ts →
        (t.type = some "club" ∨ t.type = some "domestic") →
        pivotNoEnd t = true →
        ∃ c, findCurrentClub now (some ts) = some c ∧ pivotActive now c = true) ∧
    (∀ (now : Int) (ts : List Membership), ts ≠ [] →
        (∀ t ∈ ts, t.type = some "club" ∨ t.type = some "domestic") →
        (∀ t ∈ ts, pivotActive now t = false) →
        ∃ c, findCurrentClub now (some ts) = some c ∧ c ∈ ts ∧
          ∀ t ∈ ts, startKey t ≤ startKey c) ∧
    (∀ (now : Int) (ts : List Membership), ts.filter membIsClub = [] →
        findCurrentClub now (some ts) = none) ∧
    (∀ now : Int, findCurrentClub now none = none) := by
  refine ⟨?_, ?_, ?_, ?_⟩
  · intro now ts t hmem htype hnoend
    have hfil : t ∈ ts.filter membIsClub :=
      List.mem_filter.mpr ⟨hmem, membIsClub_of_type t htype⟩
    cases hs : List.insertionSort (clubLe now) (ts.filter membIsClub) with
    | nil =>
      exfalso
      have hperm := List.perm_insertionSort (clubLe now) (ts.filter membIsClub)
      rw [hs] at hperm
      exact absurd (hperm.symm.mem_iff.mp hfil) (List.not_mem_nil t)
    | cons c tail =>
      have hfind : findCurrentClub now (some ts) = some c := by
        simp [findCurrentClub, hs]
      refine ⟨c, hfind, ?_⟩
      have hmin := (findCurrentClub_head_min now ts c hfind).2 t hfil
      have htact := pivotActive_of_noEnd now t hnoend
      by_contra hc
      rw [Bool.not_eq_true] at hc
      rw [clubLe_iff] at hmin
      rcases hmin with ⟨h1, _⟩ | ⟨h1, _⟩
      · rw [hc] at h1; cases h1
      · rw [hc, htact] at h1; cases h1
  · intro now ts hne hall hinact
    have hfil : ts.filter membIsClub = ts :=
      List.filter_eq_self.mpr fun t ht => membIsClub_of_type t (hall t ht)
    cases hs : List.insertionSort (clubLe now) (ts.filter membIsClub) with
    | nil =>
      exfalso
      have hperm := List.perm_insertionSort (clubLe now) (ts.filter membIsClub)
      rw [hs, hfil] at hperm
      exact hne (hperm.symm.eq_nil)
    | cons c tail =>
      have hfind : findCurrentClub now (some ts) = some c := by
        simp [findCurrentClub, hs]
      have hmin := findCurrentClub_head_min now ts c hfind
      rw [hfil] at hmin
      refine ⟨c, hfind, hmin.1, ?_⟩
      intro t ht
      have hle := hmin.2 t ht
      rw [clubLe_iff] at hle
      rcases hle with ⟨h1, _⟩ | ⟨_, h2⟩
      · rw [hinact c hmin.1] at h1; cases h1
      · exact h2
  · intro now ts h
    simp [findCurrentClub, h]
  · intro now
    rfl

/-- An ended club membership used in the C2 witness. -/
def membEnded : Membership :=
  { type := some "club", pivot := some { start := some 5, end_ := some 10 } }

/-- A later-starting ended domestic membership used in the C2 witness. -/
def membEnded2 : Membership :=
  { type := some "domestic", pivot := some { start := some 7, end_ := some 9 } }

/-- An open (no end date) domestic membership used in the C2 witness. -/
def membOpen : Membership :=
  { type := some "domestic", pivot := some { start := some 3 } }

/-- An explicit national-team membership used in the C2 witness. -/
def membNational : Membership :=
  { type := some "national" }

/-- Witness for claim C2 at concrete membership lists. -/
theorem claim_C2_findCurrentClub_witness :
    (∃ c, findCurrentClub 1000 (some [membEnded, membOpen]) = some c ∧
      pivotActive 1000 c = true) ∧
    (∃ c, findCurrentClub 1000 (some [membEnded, membEnded2]) = some c ∧
      c ∈ [membEnded, membEnded2] ∧
      ∀ t ∈ [membEnded, membEnded2], startKey t ≤ startKey c) ∧
    findCurrentClub 1000 (some [membNational]) = none ∧
    findCurrentClub 1000 none = none := by
  obtain ⟨h1, h2, h3, h4⟩ := claim_C2_findCurrentClub
  refine ⟨?_, ?_, ?_, h4 1000⟩
  · exact h1 1000 [membEnded, membOpen] membOpen (by simp) (Or.inr rfl) (by decide)
  · exact h2 1000 [membEnded, membEnded2] (by simp)
      (by intro t ht
          rcases List.mem_cons.mp ht with rfl | ht2
          · exact Or.inl rfl
          · rcases List.mem_cons.mp ht2 with rfl | ht3
            · exact Or.inr rfl
            · cases ht3)
      (by intro t ht
          rcases List.mem_cons.mp ht with rfl | ht2
          · decide
          · rcases List.mem_cons.mp ht2 with rfl | ht3
            · decide
            · cases ht3)
  · exact h3 1000 [membNational] (by decide)

theorem jsOrStr_of_truthy {a : Option String} (b : Option String)
    (h : strTruthy a = true) : jsOrStr a b = a := by simp [jsOrStr, h]

theorem jsOrStr_of_falsy {a : Option String} (b : Option String)
    (h : strTruthy a = false) : jsOrStr a b = b := by simp [jsOrStr, h]

theorem jsStrOrNull_of_truthy {a : Option String} (h : strTruthy a = true) :
    jsStrOrNull a = a := by simp [jsStrOrNull, h]

theorem jsStrOrNull_ne_some_empty (a : Option String) : jsStrOrNull a ≠ some "" := by
  cases a with
  | none => simp [jsStrOrNull, strTruthy]
  | some s =>
    by_cases h : s = ""
    · simp [jsStrOrNull, strTruthy, h]
    · simp [jsStrOrNull, strTruthy, h]

theorem strTruthy_some_iff (s : String) : strTruthy (some s) = true ↔ s ≠ "" := by
  simp [strTruthy]

theorem joinSpace_two_ne_empty (a b : String) : joinSpace [a, b] ≠ "" := by
  intro h
  have hlen := congrArg String.length h
  simp only [joinSpace] at hlen
  rw [String.length_append, String.length_append, String.length_empty] at hlen
  have hsp : (" " : String).length = 1 := rfl
  omega

/-- Claim C8: name resolution prioritizes the display name, then the common
name, then the space-joined present parts of first and last name; when no
name field is present it yields the null unknown marker, and it never yields
the empty string. -/
theorem claim_C8_getPlayerName :
    (∀ p : PlayerPayload,
      (strTruthy p.display_name = true → getPlayerName (some p) = p.display_name) ∧
      (strTruthy p.display_name = false → strTruthy p.common_name = true →
        getPlayerName (some p) = p.common_name) ∧
      (strTruthy p.display_name = false → strTruthy p.common_name = false →
        strTruthy p.firstname = true → strTruthy p.lastname = true →
        getPlayerName (some p) =
          some (p.firstname.getD "" ++ " " ++ p.lastname.getD "")) ∧
      (strTruthy p.display_name = false → strTruthy p.common_name = false →
        strTruthy p.firstname = true → strTruthy p.lastname = false →
        getPlayerName (some p) = p.firstname) ∧
      (strTruthy p.display_name = false → strTruthy p.common_name = false →
        strTruthy p.firstname = false → strTruthy p.lastname = true →
        getPlayerName (some p) = p.lastname) ∧
      (strTruthy p.display_name = false → strTruthy p.common_name = false →
        strTruthy p.firstname = false → strTruthy p.lastname = false →
        getPlayerName (some p) = none)) ∧
    (∀ q : Option PlayerPayload, getPlayerName q ≠ some "") := by
  constructor
  · intro p
    refine ⟨?_, ?_, ?_, ?_, ?_, ?_⟩
    · intro hd
      rw [getPlayerName, jsOrStr_of_truthy _ hd, jsStrOrNull_of_truthy hd]
    · intro hd hc
      rw [getPlayerName, jsOrStr_of_falsy _ hd, jsOrStr_of_truthy _ hc,
        jsStrOrNull_of_truthy hc]
    · intro hd hc hf hl
      rw [getPlayerName, jsOrStr_of_falsy _ hd, jsOrStr_of_falsy _ hc]
      have hjoin : truthyParts [p.firstname, p.lastname] =
          [p.firstname.getD "", p.lastname.getD ""] := by
        simp [truthyParts, List.filter, hf, hl]
      rw [hjoin]
      have htr : strTruthy
          (some (joinSpace [p.firstname.getD "", p.lastname.getD ""])) = true :=
        (strTruthy_some_iff _).mpr (joinSpace_two_ne_empty _ _)
      rw [jsStrOrNull_of_truthy htr]
      simp [joinSpace]
    · intro hd hc hf hl
      rw [getPlayerName, jsOrStr_of_falsy _ hd, jsOrStr_of_falsy _ hc]
      have hjoin : truthyParts [p.firstname, p.lastname] = [p.firstname.getD ""] := by
        simp [truthyParts, List.filter, hf, hl]
      rw [hjoin]
      cases hx : p.firstname with
      | none => rw [hx] at hf; simp [strTruthy] at hf
      | some s =>
        rw [hx] at hf
        have hs := (strTruthy_some_iff s).mp hf
        simp [joinSpace, jsStrOrNull, strTruthy, hs]
    · intro hd hc hf hl
      rw [getPlayerName, jsOrStr_of_falsy _ hd, jsOrStr_of_falsy _ hc]
      have hjoin : truthyParts [p.firstname, p.lastname] = [p.lastname.getD ""] := by
        simp [truthyParts, List.filter, hf, hl]
      rw [hjoin]
      cases hx : p.lastname with
      | none => rw [hx] at hl; simp [strTruthy] at hl
      | some s =>
        rw [hx] at hl
        have hs := (strTruthy_some_iff s).mp hl
        simp [joinSpace, jsStrOrNull, strTruthy, hs]
    · intro hd hc hf hl
      rw [getPlayerName, jsOrStr_of_falsy _ hd, jsOrStr_of_falsy _ hc]
      have hjoin : truthyParts [p.firstname, p.lastname] = [] := by
        simp [truthyParts, List.filter, hf, hl]
      rw [hjoin]
      simp [joinSpace, jsStrOrNull, strTruthy]
  · intro q
    cases q with
    | none => simp [getPlayerName]
    | some p =>
      rw [getPlayerName]
      exact jsStrOrNull_ne_some_empty _

/-- Witness for claim C8 at concrete player payloads. -/
theorem claim_C8_getPlayerName_witness :
    getPlayerName (some { id := 1, display_name := some "Pedri" }) = some "Pedri" ∧
    getPlayerName (some { id := 2, common_name := some "Gavi" }) = some "Gavi" ∧
    getPlayerName (some { id := 3, firstname := some "Pablo", lastname := some "Paez" }) =
      some ("Pablo" ++ " " ++ "Paez") ∧
    getPlayerName (some { id := 4, firstname := some "Pablo" }) = some "Pablo" ∧
    getPlayerName (some { id := 5 }) = none ∧
    getPlayerName (some { id := 6, display_name := some "" }) ≠ some "" := by
  obtain ⟨hall, hnever⟩ := claim_C8_getPlayerName
  refine ⟨?_, ?_, ?_, ?_, ?_, hnever _⟩
  · exact (hall _).1 (by decide)
  · exact (hall _).2.1 (by decide) (by decide)
  · exact (hall _).2.2.1 (by decide) (by decide) (by decide) (by decide)
  · exact (hall _).2.2.2.1 (by decide) (by decide) (by decide) (by decide)
  · exact (hall _).2.2.2.2.2 (by decide) (by decide) (by decide) (by decide)

/-- Counterexample to claim C9: the squad identifier computed by
`upsertSquad` is not of the form `entity:provider:key` with the team key as
the provider-local key — it carries a trailing `:current` segment. -/
theorem claim_C9_counterexample :
    (mkSquadDoc 0 { teamId := "18710" })._id = "squad:sportmonks:18710:current" ∧
    (mkSquadDoc 0 { teamId := "18710" })._id ≠ idOfForm "squad" "sportmonks" "18710" := by
  constructor
  · rfl
  · decide

/-- Claim C9 (amended): when the caller supplies no identifier, teams,
players and countries get the deterministic key `entity:sportmonks:key`,
while squads get that key with a trailing `:current` segment appended. -/
theorem claim_C9_amended (now : Nat) (t : TeamInput) (p : PlayerInput)
    (s : SquadInput) (c : CountryInput)
    (htid : ¬strTruthy t._id) (hpid : ¬strTruthy p._id) (hsid : ¬strTruthy s._id) :
    (mkTeamDoc now t)._id = idOfForm "team" "sportmonks" t.providerId ∧
    (mkPlayerDoc now p)._id = idOfForm "player" "sportmonks" p.providerId ∧
    (mkSquadDoc now s)._id = idOfForm "squad" "sportmonks" s.teamId ++ ":current" ∧
    (mkCountryDoc now c)._id = idOfForm "country" "sportmonks" c.providerId := by
  rw [Bool.not_eq_true] at htid hpid hsid
  refine ⟨?_, ?_, ?_, ?_⟩
  · simp [mkTeamDoc, jsOrDefault, htid, teamDefaultId, idOfForm]
  · simp [mkPlayerDoc, jsOrDefault, hpid, playerDefaultId, idOfForm]
  · simp only [mkSquadDoc, jsOrDefault, hsid, Bool.false_eq_true, if_false,
      squadDefaultId, idOfForm]
    simp [String.append_assoc]
  · simp [mkCountryDoc, countryDefaultId, idOfForm]

/-- Witness for the amended claim C9 at concrete inputs. -/
theorem claim_C9_amended_witness :
    (mkTeamDoc 0 { providerId := "18710" })._id = idOfForm "team" "sportmonks" "18710" ∧
    (mkPlayerDoc 0 { providerId := "77" })._id = idOfForm "player" "sportmonks" "77" ∧
    (mkSquadDoc 0 { teamId := "18710" })._id =
      idOfForm "squad" "sportmonks" "18710" ++ ":current" ∧
    (mkCountryDoc 0 { providerId := "5" })._id = idOfForm "country" "sportmonks" "5" :=
  claim_C9_amended 0 { providerId := "18710" } { providerId := "77" }
    { teamId := "18710" } { providerId := "5" } (by decide) (by decide) (by decide)

/-! ## The retrying API client of `src/ingestCSV.js` (Sportmonks client) -/

/-- What one outbound attempt of `apiRequest` observes. -/
inductive RespEvent where
  | http (status : Nat) (body : String)
  | timeout
  | netErr (code : String) (msg : String)
deriving DecidableEq, Repr

/-- The JavaScript errors `apiRequest` creates or catches; the error thrown
after exhausting retries carries only the message of the last caught error. -/
inductive JsError where
  | apiError (status : Nat) (body : String)
  | abortError
  | netError (code : String) (msg : String)
  | maxRetriesExceeded (lastMessage : Option String)
deriving DecidableEq, Repr

/-- The `message` property of an error, as tested by the catch clause. -/
def errMessage : JsError → String
  | .apiError status body => "API Error " ++ toString status ++ ": " ++ body
  | .abortError => "This operation was aborted"
  | .netError _ msg => msg
  | .maxRetriesExceeded _ => "Max retries exceeded"

/-- Whether `pattern` occurs at the start of `s`. -/
def charsStartWith : List Char → List Char → Bool
  | [], _ => true
  | _ :: _, [] => false
  | p :: ps, c :: cs => p == c && charsStartWith ps cs

/-- Whether `pattern` occurs anywhere in `s`. -/
def charsContain (pattern : List Char) : List Char → Bool
  | [] => pattern.isEmpty
  | c :: cs => charsStartWith pattern (c :: cs) || charsContain pattern cs

/-- `message.includes` with the pattern the catch clause tests. -/
def containsFetch (s : String) : Bool :=
  charsContain "fetch".data s.data

deriving instance DecidableEq for Except

/-- The observable outcome of one `apiRequest` call: its result, how many
attempts were issued, and the backoff wait in milliseconds performed after
each retried attempt (0 when the code retries without waiting). -/
structure ReqOutcome where
  result : Except JsError String
  attempts : Nat
  delays : List Nat
deriving DecidableEq, Repr

/-- The retry loop of `apiRequest`: `attempt` is the loop counter,
`remaining` the number of loop iterations still allowed, `lastError` the
variable of the same name, `delays` the backoff waits performed so far. -/
def apiRequestGo (events : Nat → RespEvent) (attempt : Nat) (lastError : Option JsError)
    (delays : List Nat) : Nat → ReqOutcome
  | 0 => ⟨.error (.maxRetriesExceeded (lastError.map errMessage)), attempt, delays⟩
  | remaining + 1 =>
    match events attempt with
    | .http status body =>
      if status = 429 then
        apiRequestGo events (attempt + 1) lastError (delays ++ [2 ^ attempt * 1000]) remaining
      else if 500 ≤ status then
        apiRequestGo events (attempt + 1) lastError (delays ++ [2 ^ attempt * 1000]) remaining
      else if 400 ≤ status then
        if containsFetch (errMessage (.apiError status body)) then
          apiRequestGo events (attempt + 1) (some (.apiError status body))
            (delays ++ [2 ^ attempt * 1000]) remaining
        else ⟨.error (.apiError status body), attempt + 1, delays⟩
      else ⟨.ok body, attempt + 1, delays⟩
    | .timeout =>
        apiRequestGo events (attempt + 1) (some .abortError) (delays ++ [0]) remaining
    | .netErr code msg =>
      if code = "ECONNRESET" ∨ code = "ENOTFOUND" ∨ containsFetch msg = true then
        apiRequestGo events (attempt + 1) (some (.netError code msg))
          (delays ++ [2 ^ attempt * 1000]) remaining
      else ⟨.error (.netError code msg), attempt + 1, delays⟩

/-- `apiRequest` with a given `MAX_RETRIES`: up to `MAX_RETRIES + 1` attempts. -/
def apiRequest (maxRetries : Nat) (events : Nat → RespEvent) : ReqOutcome :=
  apiRequestGo events 0 none [] (maxRetries + 1)

/-- The backoff wait the code performs after a retried attempt `i`. -/
def expectedDelay (events : Nat → RespEvent) (i : Nat) : Nat :=
  match events i with
  | .timeout => 0
  | _ => 2 ^ i * 1000

theorem delays_snoc_spec (events : Nat → RespEvent) (ds : List Nat) (attempt : Nat)
    (hlen : ds.length = attempt)
    (hds : ∀ i d, ds.get? i = some d → d = expectedDelay events i)
    (x : Nat) (hx : x = expectedDelay events attempt) :
    ∀ i d, (ds ++ [x]).get? i = some d → d = expectedDelay events i := by
  intro i d hi
  by_cases hlt : i < ds.length
  · rw [List.get?_append hlt] at hi
    exact hds i d hi
  · have hle : ds.length ≤ i := le_of_not_lt hlt
    rw [List.get?_append_right hle] at hi
    cases hsub : i - ds.length with
    | zero =>
      rw [hsub] at hi
      simp only [List.get?] at hi
      have hieq : i = attempt := by omega
      cases hi
      rw [hieq]
      exact hx
    | succ k =>
      rw [hsub] at hi
      simp [List.get?] at hi

theorem apiRequestGo_delays (events : Nat → RespEvent) :
    ∀ (remaining attempt : Nat) (lastError : Option JsError) (ds : List Nat),
      ds.length = attempt →
      (∀ i d, ds.get? i = some d → d = expectedDelay events i) →
      ∀ i d, (apiRequestGo events attempt lastError ds remaining).delays.get? i = some d →
        d = expectedDelay events i := by
  intro remaining
  induction remaining with
  | zero =>
    intro attempt lastError ds hlen hds i d h
    exact hds i d h
  | succ r ih =>
    intro attempt lastError ds hlen hds i d h
    have hlen2 : (ds ++ [2 ^ attempt * 1000]).length = attempt + 1 := by simp [hlen]
    have hlen0 : (ds ++ [0]).length = attempt + 1 := by simp [hlen]
    cases hev : events attempt with
    | http status body =>
      simp only [apiRequestGo, hev] at h
      split_ifs at h with h429 h500 h400 hfetch
      · refine ih (attempt + 1) lastError _ hlen2
          (delays_snoc_spec events ds attempt hlen hds _ ?_) i d h
        simp [expectedDelay, hev]
      · refine ih (attempt + 1) lastError _ hlen2
          (delays_snoc_spec events ds attempt hlen hds _ ?_) i d h
        simp [expectedDelay, hev]
      · refine ih (attempt + 1) _ _ hlen2
          (delays_snoc_spec events ds attempt hlen hds _ ?_) i d h
        simp [expectedDelay, hev]
      · exact hds i d h
      · exact hds i d h
    | timeout =>
      simp only [apiRequestGo, hev] at h
      refine ih (attempt + 1) _ _ hlen0
        (delays_snoc_spec events ds attempt hlen hds _ ?_) i d h
      simp [expectedDelay, hev]
    | netErr code msg =>
      simp only [apiRequestGo, hev] at h
      split_ifs at h with hnet
      · refine ih (attempt + 1) _ _ hlen2
          (delays_snoc_spec events ds attempt hlen hds _ ?_) i d h
        simp [expectedDelay, hev]
      · exact hds i d h

theorem apiRequestGo_attempts_le (events : Nat → RespEvent) :
    ∀ (remaining attempt : Nat) (lastError : Option JsError) (ds : List Nat),
      (apiRequestGo events attempt lastError ds remaining).attempts ≤ attempt + remaining := by
  intro remaining
  induction remaining with
  | zero => intro attempt lastError ds; simp [apiRequestGo]
  | succ r ih =>
    intro attempt lastError ds
    cases hev : events attempt with
    | http status body =>
      simp only [apiRequestGo, hev]
      split_ifs with h429 h500 h400 hfetch
      · calc (apiRequestGo events (attempt + 1) lastError _ r).attempts
            ≤ attempt + 1 + r := ih (attempt + 1) lastError _
          _ = attempt + (r + 1) := by omega
      · calc (apiRequestGo events (attempt + 1) lastError _ r).attempts
            ≤ attempt + 1 + r := ih (attempt + 1) lastError _
          _ = attempt + (r + 1) := by omega
      · calc (apiRequestGo events (attempt + 1) _ _ r).attempts
            ≤ attempt + 1 + r := ih (attempt + 1) _ _
          _ = attempt + (r + 1) := by omega
      · simp
      · simp
    | timeout =>
      simp only [apiRequestGo, hev]
      calc (apiRequestGo events (attempt + 1) _ _ r).attempts
          ≤ attempt + 1 + r := ih (attempt + 1) _ _
        _ = attempt + (r + 1) := by omega
    | netErr code msg =>
      simp only [apiRequestGo, hev]
      split_ifs with hnet
      · calc (apiRequestGo events (attempt + 1) _ _ r).attempts
            ≤ attempt + 1 + r := ih (attempt + 1) _ _
          _ = attempt + (r + 1) := by omega
      · simp

/-- The response sequence 429, then 500, then success. -/
def events429Then500 : Nat → RespEvent :=
  fun i => if i = 0 then .http 429 "" else if i = 1 then .http 500 "" else .http 200 "{}"

/-- A timeout on the first attempt, then success. -/
def eventsTimeoutThenOk : Nat → RespEvent :=
  fun i => if i = 0 then .timeout else .http 200 "ok"

/-- Counterexample to claim C3: after a request timeout the client retries
with no backoff wait at all, not a wait of `2 ^ attempt` seconds. -/
theorem claim_C3_counterexample :
    (apiRequest 4 eventsTimeoutThenOk).result = .ok "ok" ∧
    (apiRequest 4 eventsTimeoutThenOk).attempts = 2 ∧
    (apiRequest 4 eventsTimeoutThenOk).delays = [0] ∧
    (0 : Nat) ≠ 2 ^ 0 * 1000 := by
  refine ⟨rfl, rfl, rfl, by decide⟩

/-- Claim C3 (amended): every backoff wait after retried attempt `i` is
`2 ^ i * 1000` ms except after a timeout, where the client retries with no
wait; at most `MAX_RETRIES` retries happen after the first attempt; and the
sequence 429, 500, 200 yields success after exactly 2 retries with the
non-decreasing waits 1000 ms then 2000 ms. -/
theorem claim_C3_amended :
    (∀ (maxRetries : Nat) (events : Nat → RespEvent) (i d : Nat),
        (apiRequest maxRetries events).delays.get? i = some d →
        d = expectedDelay events i) ∧
    (∀ (maxRetries : Nat) (events : Nat → RespEvent),
        (apiRequest maxRetries events).attempts ≤ maxRetries + 1) ∧
    apiRequest 4 events429Then500 = ⟨.ok "{}", 3, [1000, 2000]⟩ := by
  refine ⟨?_, ?_, ?_⟩
  · intro maxRetries events i d h
    exact apiRequestGo_delays events (maxRetries + 1) 0 none [] rfl (by simp) i d h
  · intro maxRetries events
    have h := apiRequestGo_attempts_le events (maxRetries + 1) 0 none []
    rw [apiRequest]
    omega
  · rfl

/-- Witness for the amended claim C3: the first backoff of the 429-then-500
run is 1000 ms as predicted, and the run stays within the attempt budget. -/
theorem claim_C3_amended_witness :
    (1000 : Nat) = expectedDelay events429Then500 0 ∧
    (apiRequest 4 events429Then500).attempts ≤ 5 := by
  obtain ⟨h1, h2, _⟩ := claim_C3_amended
  exact ⟨h1 4 events429Then500 0 1000 rfl, h2 4 events429Then500⟩

/-- A 404 whose response body happens to contain the substring fetch. -/
def events404Fetch : Nat → RespEvent :=
  fun _ => .http 404 "fetch failed from upstream"

/-- A plain 404 with a body free of that substring, then success. -/
def events404Plain : Nat → RespEvent :=
  fun i => if i = 0 then .http 404 "Not Found" else .http 200 "ok"

/-- Claim C4 is the intended behavior but the code has a bug: a 4xx response
is only surfaced immediately when its body text avoids the substring fetch;
a 404 whose body contains fetch matches the network-error test
`error.message.includes` in the catch clause and is retried with backoff
until the attempt budget is exhausted. -/
theorem claim_C4_code_bug :
    (apiRequest 4 events404Plain).result = .error (.apiError 404 "Not Found") ∧
    (apiRequest 4 events404Plain).attempts = 1 ∧
    (apiRequest 4 events404Fetch).attempts = 5 ∧
    (apiRequest 4 events404Fetch).result =
      .error (.maxRetriesExceeded (some "API Error 404: fetch failed from upstream")) := by
  refine ⟨?_, ?_, ?_, ?_⟩ <;> decide

/-! ## The ingestion orchestrator of `src/ingest.js` -/

/-- A provider team payload. -/
structure TeamPayload where
  id : Nat
  name : Option String := none
  type : Option String := none
  image_path : Option String := none
  country : Option CountryPayload := none
deriving DecidableEq, Repr

/-- One squad entry of the squads-by-team response. -/
structure SquadEntry where
  player_id : Option Nat := none
  player : Option PlayerPayload := none
deriving DecidableEq, Repr

/-- The API client as the orchestrator sees it for one team: each awaited
call either resolves to a payload (`none` when the response had no data) or
rejects with an error message. -/
structure Client where
  getTeamSquad : Except String (List SquadEntry)
  getTeam : Except String (Option TeamPayload)
  getPlayer : Nat → Except String (Option PlayerPayload)
  getCountry : Nat → Except String (Option CountryPayload)

/-- One record of the run's error list. -/
inductive ErrEntry where
  | playerErr (playerId : Nat) (error : String)
  | teamErr (teamId : Nat) (error : String)
deriving DecidableEq, Repr

/-- The stats record returned by `processTeamSquad`. -/
structure Stats where
  playersUpserted : Nat
  errors : List ErrEntry
deriving DecidableEq, Repr

/-- The mutable state of the player loop inside `processTeamSquad`. -/
structure LoopState where
  db : DB
  playerIds : List String
  playersUpserted : Nat
  errors : List ErrEntry
deriving DecidableEq, Repr

/-- The nationality resolution block of the player loop. -/
def resolveNationality (client : Client) (p : PlayerPayload) :
    Except String CountryRef :=
  match p.nationality with
  | some nat => .ok (extractCountryInfo (some nat))
  | none =>
    if natTruthy p.nationality_id then
      match client.getCountry (p.nationality_id.getD 0) with
      | .error e => .error e
      | .ok natCountry => .ok (extractCountryInfo natCountry)
    else .ok ⟨none, none, none⟩

/-- The current-club resolution block of the player loop. -/
def resolveCurrentClub (client : Client) (nowD : Int) (p : PlayerPayload) :
    Except String (ClubRef × CountryRef) :=
  match p.teams with
  | none => .ok (⟨none, none⟩, ⟨none, none, none⟩)
  | some _ =>
    match findCurrentClub nowD p.teams with
    | none => .ok (⟨none, none⟩, ⟨none, none, none⟩)
    | some club =>
      match club.country with
      | some c =>
        .ok (⟨jsNatOrNull club.id, jsStrOrNull club.name⟩, extractCountryInfo (some c))
      | none =>
        if natTruthy club.country_id then
          match client.getCountry (club.country_id.getD 0) with
          | .error e => .error e
          | .ok cc =>
            .ok (⟨jsNatOrNull club.id, jsStrOrNull club.name⟩, extractCountryInfo cc)
        else .ok (⟨jsNatOrNull club.id, jsStrOrNull club.name⟩, ⟨none, none, none⟩)

/-- The included-or-fetched player payload: the included `entry.player` is
used only when it carries a nationality id, otherwise the player is fetched. -/
def fetchPlayer (client : Client) (pid : Nat) (entry : SquadEntry) :
    Except String (Option PlayerPayload) :=
  match entry.player with
  | some pl =>
    if natTruthy pl.nationality_id then .ok (some pl) else client.getPlayer pid
  | none => client.getPlayer pid

/-- The try-block of one player-loop iteration: resolves to `none` for the
silent skip (missing payload), `some` with the updated store and the pushed
document id on success, or an error message when an awaited call rejects. -/
def tryProcessPlayer (client : Client) (nowA : Nat) (nowD : Int) (db : DB)
    (pid : Nat) (entry : SquadEntry) : Except String (Option (DB × String)) :=
  match fetchPlayer client pid entry with
  | .error e => .error e
  | .ok none => .ok none
  | .ok (some p) =>
    match resolveNationality client p with
    | .error e => .error e
    | .ok nationalityInfo =>
      match resolveCurrentClub client nowD p with
      | .error e => .error e
      | .ok cc =>
        .ok (some (upsertPlayer nowA
          { providerId := toString p.id
            name := getPlayerName (some p)
            nationality := some nationalityInfo
            image_path := jsStrOrNull p.image_path
            currentClub := some cc.1
            currentClubCountry := some cc.2 } db,
          "player:sportmonks:" ++ toString p.id))

/-- One iteration of the player loop, catch clause included. -/
def stepEntry (client : Client) (nowA : Nat) (nowD : Int) (st : LoopState)
    (entry : SquadEntry) : LoopState :=
  if natTruthy entry.player_id then
    let pid := entry.player_id.getD 0
    match tryProcessPlayer client nowA nowD st.db pid entry with
    | .ok none => st
    | .ok (some (db2, docId)) =>
      { st with
        db := db2
        playerIds := st.playerIds ++ [docId]
        playersUpserted := st.playersUpserted + 1 }
    | .error msg => { st with errors := st.errors ++ [.playerErr pid msg] }
  else st

/-- The player loop over the capped squad entries. -/
def processEntries (client : Client) (nowA : Nat) (nowD : Int)
    (entries : List SquadEntry) (st : LoopState) : LoopState :=
  entries.foldl (stepEntry client nowA nowD) st

/-- The team-document block of `processTeamSquad`: when the team payload is
present, upsert the team document and, when it carries a country with a
truthy id, cache that country. -/
def teamPhase (nowA : Nat) (teamOpt : Option TeamPayload) (db : DB) : DB :=
  match teamOpt with
  | none => db
  | some team =>
    let dbT := upsertTeam nowA
      { providerId := toString team.id
        name := team.name
        type := jsStrOrNull team.type
        country := some (extractCountryInfo team.country)
        image_path := jsStrOrNull team.image_path } db
    match team.country with
    | some c =>
      if natTruthy c.id then
        upsertCountry nowA
          { providerId := toString (c.id.getD 0)
            name := c.name
            code := jsOrStr c.iso2 c.fifa_name } dbT
      else dbT
    | none => dbT

/-- `processTeamSquad` from `src/ingest.js`: fetch the squad, fetch and
upsert the team (with its country cache entry), run the capped player loop,
then upsert the squad document; team-level failures are caught and recorded. -/
def processTeamSquad (client : Client) (teamId : Nat) (maxPlayersPerSquad : Nat)
    (nowA : Nat) (nowD : Int) (db : DB) : DB × Stats :=
  match client.getTeamSquad with
  | .error e => (db, ⟨0, [.teamErr teamId e]⟩)
  | .ok squadEntries =>
    if squadEntries.length = 0 then (db, ⟨0, []⟩)
    else
      match client.getTeam with
      | .error e => (db, ⟨0, [.teamErr teamId e]⟩)
      | .ok teamOpt =>
        let db1 := teamPhase nowA teamOpt db
        let maxPlayers := min squadEntries.length maxPlayersPerSquad
        let fin := processEntries client nowA nowD (squadEntries.take maxPlayers)
          ⟨db1, [], 0, []⟩
        let db2 := upsertSquad nowA
          { teamId := toString teamId, playerIds := some fin.playerIds } fin.db
        (db2, ⟨fin.playersUpserted, fin.errors⟩)

/-- The run summary accumulated by `main`. -/
structure Summary where
  teamsProcessed : Nat
  playersUpserted : Nat
  squadsUpserted : Nat
  errors : List ErrEntry
deriving DecidableEq, Repr

/-- The per-team body of the loop in `main`: both `teamsProcessed` and
`squadsUpserted` are incremented unconditionally. -/
def runMainStep (clients : Nat → Client) (maxPlayersPerSquad : Nat) (nowA : Nat)
    (nowD : Int) (acc : DB × Summary) (teamId : Nat) : DB × Summary :=
  let res := processTeamSquad (clients teamId) teamId maxPlayersPerSquad nowA nowD acc.1
  (res.1,
    { teamsProcessed := acc.2.teamsProcessed + 1
      playersUpserted := acc.2.playersUpserted + res.2.playersUpserted
      squadsUpserted := acc.2.squadsUpserted + 1
      errors := acc.2.errors ++ res.2.errors })

/-- The team loop of `main` over the configured team ids. -/
def runMain (clients : Nat → Client) (maxPlayersPerSquad : Nat) (nowA : Nat)
    (nowD : Int) (teamIds : List Nat) (db : DB) : DB × Summary :=
  teamIds.foldl (runMainStep clients maxPlayersPerSquad nowA nowD) (db, ⟨0, 0, 0, []⟩)

theorem upsertPlayer_squads (now : Nat) (p : PlayerInput) (db : DB) :
    (upsertPlayer now p db).squads = db.squads := rfl

theorem upsertSquad_players (now : Nat) (s : SquadInput) (db : DB) :
    (upsertSquad now s db).players = db.players := rfl

theorem teamPhase_squads (nowA : Nat) (teamOpt : Option TeamPayload) (db : DB) :
    (teamPhase nowA teamOpt db).squads = db.squads := by
  cases teamOpt with
  | none => rfl
  | some team =>
    unfold teamPhase
    cases hco : team.country with
    | none => simp [hco, upsertTeam]
    | some c =>
      cases hc : natTruthy c.id <;> simp [hco, hc, upsertCountry, upsertTeam]

theorem tryProcessPlayer_squads (client : Client) (nowA : Nat) (nowD : Int) (db : DB)
    (pid : Nat) (entry : SquadEntry) (db2 : DB) (s : String)
    (h : tryProcessPlayer client nowA nowD db pid entry = .ok (some (db2, s))) :
    db2.squads = db.squads := by
  cases hfp : fetchPlayer client pid entry with
  | error e => simp [tryProcessPlayer, hfp] at h
  | ok v =>
    cases v with
    | none => simp [tryProcessPlayer, hfp] at h
    | some p =>
      cases hn : resolveNationality client p with
      | error e => simp [tryProcessPlayer, hfp, hn] at h
      | ok ni =>
        cases hc : resolveCurrentClub client nowD p with
        | error e => simp [tryProcessPlayer, hfp, hn, hc] at h
        | ok cc =>
          simp only [tryProcessPlayer, hfp, hn, hc, Except.ok.injEq, Option.some.injEq,
            Prod.mk.injEq] at h
          rw [← h.1]
          rfl

theorem stepEntry_db_squads (client : Client) (nowA : Nat) (nowD : Int)
    (st : LoopState) (entry : SquadEntry) :
    (stepEntry client nowA nowD st entry).db.squads = st.db.squads := by
  unfold stepEntry
  cases htr : natTruthy entry.player_id with
  | false => simp
  | true =>
    simp only [if_true]
    cases hr : tryProcessPlayer client nowA nowD st.db (entry.player_id.getD 0) entry with
    | error e => simp [hr]
    | ok v =>
      cases v with
      | none => simp [hr]
      | some pr =>
        cases pr with
        | mk db2 s =>
          simp only [hr]
          exact tryProcessPlayer_squads client nowA nowD st.db _ entry db2 s hr

theorem stepEntry_playerIds_le (client : Client) (nowA : Nat) (nowD : Int)
    (st : LoopState) (entry : SquadEntry) :
    (stepEntry client nowA nowD st entry).playerIds.length ≤ st.playerIds.length + 1 := by
  unfold stepEntry
  cases htr : natTruthy entry.player_id with
  | false => simp
  | true =>
    simp only [if_true]
    cases hr : tryProcessPlayer client nowA nowD st.db (entry.player_id.getD 0) entry with
    | error e => simp
    | ok v =>
      cases v with
      | none => simp
      | some pr =>
        cases pr with
        | mk db2 s => simp

theorem processEntries_db_squads (client : Client) (nowA : Nat) (nowD : Int) :
    ∀ (entries : List SquadEntry) (st : LoopState),
      (processEntries client nowA nowD entries st).db.squads = st.db.squads := by
  intro entries
  induction entries with
  | nil => intro st; rfl
  | cons e es ih =>
    intro st
    have h1 : processEntries client nowA nowD (e :: es) st =
        processEntries client nowA nowD es (stepEntry client nowA nowD st e) := rfl
    rw [h1, ih, stepEntry_db_squads]

theorem processEntries_playerIds_le (client : Client) (nowA : Nat) (nowD : Int) :
    ∀ (entries : List SquadEntry) (st : LoopState),
      (processEntries client nowA nowD entries st).playerIds.length ≤
        st.playerIds.length + entries.length := by
  intro entries
  induction entries with
  | nil => intro st; simp [processEntries]
  | cons e es ih =>
    intro st
    have h1 : processEntries client nowA nowD (e :: es) st =
        processEntries client nowA nowD es (stepEntry client nowA nowD st e) := rfl
    rw [h1]
    calc (processEntries client nowA nowD es (stepEntry client nowA nowD st e)).playerIds.length
        ≤ (stepEntry client nowA nowD st e).playerIds.length + es.length := ih _
      _ ≤ st.playerIds.length + 1 + es.length := by
          have := stepEntry_playerIds_le client nowA nowD st e
          omega
      _ = st.playerIds.length + (e :: es).length := by simp [List.length_cons]; omega

/-- A fully populated nationality payload used in the squad-run scenarios. -/
def simpleCountry : CountryPayload :=
  { id := some 7, name := some "Spain", iso2 := some "ES" }

/-- A player payload with an included nationality and no team history. -/
def simplePlayer (p : Nat) : PlayerPayload :=
  { id := p, display_name := some "Player", nationality_id := some 7,
    nationality := some simpleCountry }

/-- A squad entry carrying only the player id. -/
def mkEntry (p : Nat) : SquadEntry := { player_id := some p }

/-- A client that serves the given squad entries, no team payload, and
players by id, rejecting with a 404 exactly on the ids marked bad. -/
def goodClient (entries : List SquadEntry) (bad : Nat → Bool) : Client :=
  { getTeamSquad := .ok entries
    getTeam := .ok none
    getPlayer := fun p =>
      if bad p then .error "API Error 404: Not Found" else .ok (some (simplePlayer p))
    getCountry := fun _ => .ok none }

/-- The normalized input `processTeamSquad` passes to `upsertPlayer` for a
successfully fetched `simplePlayer`. -/
def goodPlayerInput (p : Nat) : PlayerInput :=
  { providerId := toString p
    name := some "Player"
    nationality := some (extractCountryInfo (some simpleCountry))
    image_path := none
    currentClub := some ⟨none, none⟩
    currentClubCountry := some ⟨none, none, none⟩ }

/-- The document id pushed for a processed player. -/
def playerDocIdOf (p : Nat) : String := "player:sportmonks:" ++ toString p

/-- The player document persisted for a successfully fetched `simplePlayer`. -/
def goodPlayerDoc (nowA p : Nat) : PlayerDoc := mkPlayerDoc nowA (goodPlayerInput p)

/-- The store after upserting the documents of the given player ids in order. -/
def upsertGoodPlayers (nowA : Nat) (ps : List Nat) (db : DB) : DB :=
  ps.foldl (fun d p => upsertPlayer nowA (goodPlayerInput p) d) db

theorem upsertGoodPlayers_cons (nowA q : Nat) (rest : List Nat) (db : DB) :
    upsertGoodPlayers nowA (q :: rest) db =
      upsertGoodPlayers nowA rest (upsertPlayer nowA (goodPlayerInput q) db) := rfl

theorem stepEntry_good (entries : List SquadEntry) (bad : Nat → Bool)
    (nowA : Nat) (nowD : Int) (st : LoopState) (p : Nat)
    (hp : p ≠ 0) (hgood : bad p = false) :
    stepEntry (goodClient entries bad) nowA nowD st (mkEntry p) =
      { st with
        db := upsertPlayer nowA (goodPlayerInput p) st.db
        playerIds := st.playerIds ++ [playerDocIdOf p]
        playersUpserted := st.playersUpserted + 1 } := by
  have htry : tryProcessPlayer (goodClient entries bad) nowA nowD st.db p (mkEntry p) =
      .ok (some (upsertPlayer nowA (goodPlayerInput p) st.db, playerDocIdOf p)) := by
    simp [tryProcessPlayer, fetchPlayer, mkEntry, goodClient, hgood,
      resolveNationality, resolveCurrentClub, simplePlayer, goodPlayerInput,
      playerDocIdOf, getPlayerName, jsOrStr, jsStrOrNull, strTruthy]
  have h1 : natTruthy (mkEntry p).player_id = true := by simp [mkEntry, natTruthy, hp]
  have h2 : (mkEntry p).player_id.getD 0 = p := rfl
  simp [stepEntry, h1, h2, htry]

theorem stepEntry_bad (entries : List SquadEntry) (bad : Nat → Bool)
    (nowA : Nat) (nowD : Int) (st : LoopState) (p : Nat)
    (hp : p ≠ 0) (hbad : bad p = true) :
    stepEntry (goodClient entries bad) nowA nowD st (mkEntry p) =
      { st with errors := st.errors ++ [.playerErr p "API Error 404: Not Found"] } := by
  have htry : tryProcessPlayer (goodClient entries bad) nowA nowD st.db p (mkEntry p) =
      .error "API Error 404: Not Found" := by
    simp [tryProcessPlayer, fetchPlayer, mkEntry, goodClient, hbad]
  have h1 : natTruthy (mkEntry p).player_id = true := by simp [mkEntry, natTruthy, hp]
  have h2 : (mkEntry p).player_id.getD 0 = p := rfl
  simp [stepEntry, h1, h2, htry]

theorem processEntries_goodClient (entries : List SquadEntry) (bad : Nat → Bool)
    (nowA : Nat) (nowD : Int) :
    ∀ (ids : List Nat) (st : LoopState), (∀ p ∈ ids, p ≠ 0) →
      processEntries (goodClient entries bad) nowA nowD (ids.map mkEntry) st =
        { db := upsertGoodPlayers nowA (ids.filter (fun p => !bad p)) st.db
          playerIds := st.playerIds ++ (ids.filter (fun p => !bad p)).map playerDocIdOf
          playersUpserted := st.playersUpserted + (ids.filter (fun p => !bad p)).length
          errors := st.errors ++ (ids.filter bad).map
            (fun p => .playerErr p "API Error 404: Not Found") } := by
  intro ids
  induction ids with
  | nil =>
    intro st h0
    simp [processEntries, upsertGoodPlayers]
  | cons q rest ih =>
    intro st h0
    have hq0 : q ≠ 0 := h0 q (List.mem_cons_self q rest)
    have hrest : ∀ p ∈ rest, p ≠ 0 := fun p hp => h0 p (List.mem_cons_of_mem q hp)
    have hcons : processEntries (goodClient entries bad) nowA nowD
        ((q :: rest).map mkEntry) st =
        processEntries (goodClient entries bad) nowA nowD (rest.map mkEntry)
          (stepEntry (goodClient entries bad) nowA nowD st (mkEntry q)) := rfl
    rw [hcons]
    cases hb : bad q with
    | false =>
      rw [stepEntry_good entries bad nowA nowD st q hq0 hb, ih _ hrest]
      simp [List.filter_cons, hb, upsertGoodPlayers_cons, List.append_assoc]
      omega
    | true =>
      rw [stepEntry_bad entries bad nowA nowD st q hq0 hb, ih _ hrest]
      simp [List.filter_cons, hb, List.append_assoc]

theorem upsertGoodPlayers_squads (nowA : Nat) :
    ∀ (ps : List Nat) (db : DB), (upsertGoodPlayers nowA ps db).squads = db.squads := by
  intro ps
  induction ps with
  | nil => intro db; rfl
  | cons q rest ih =>
    intro db
    rw [upsertGoodPlayers_cons, ih, upsertPlayer_squads]

theorem string_append_left_cancel (a b c : String) (h : a ++ b = a ++ c) : b = c := by
  have hd := congrArg String.data h
  rw [String.data_append, String.data_append] at hd
  exact String.ext (List.append_cancel_left hd)

theorem goodPlayerDoc_id (nowA p : Nat) :
    (goodPlayerDoc nowA p)._id = "player:sportmonks:" ++ toString p := rfl

theorem goodPlayerDoc_cases (nowA p q : Nat) :
    goodPlayerDoc nowA q = goodPlayerDoc nowA p ∨
      (goodPlayerDoc nowA q)._id ≠ (goodPlayerDoc nowA p)._id := by
  by_cases h : toString q = toString p
  · left
    unfold goodPlayerDoc goodPlayerInput
    rw [h]
  · right
    intro hc
    rw [goodPlayerDoc_id, goodPlayerDoc_id] at hc
    exact h (string_append_left_cancel _ _ _ hc)

theorem upsertGoodPlayers_mem_preserve (nowA : Nat) :
    ∀ (ps : List Nat) (db : DB) (p : Nat),
      goodPlayerDoc nowA p ∈ db.players →
      goodPlayerDoc nowA p ∈ (upsertGoodPlayers nowA ps db).players := by
  intro ps
  induction ps with
  | nil => intro db p h; exact h
  | cons q rest ih =>
    intro db p h
    rw [upsertGoodPlayers_cons]
    apply ih
    show goodPlayerDoc nowA p ∈
      upsertById PlayerDoc._id (goodPlayerDoc nowA q) db.players
    rcases goodPlayerDoc_cases nowA p q with heq | hne
    · rw [heq]
      exact upsertById_mem_self PlayerDoc._id (goodPlayerDoc nowA p) db.players
    · exact upsertById_mem_preserve PlayerDoc._id (goodPlayerDoc nowA q)
        (goodPlayerDoc nowA p) db.players (fun hx => hne (hx.symm ▸ rfl)) h

theorem upsertGoodPlayers_mem (nowA : Nat) :
    ∀ (ps : List Nat) (db : DB) (p : Nat), p ∈ ps →
      goodPlayerDoc nowA p ∈ (upsertGoodPlayers nowA ps db).players := by
  intro ps
  induction ps with
  | nil => intro db p h; cases h
  | cons q rest ih =>
    intro db p h
    rcases List.mem_cons.mp h with rfl | h2
    · rw [upsertGoodPlayers_cons]
      apply upsertGoodPlayers_mem_preserve
      show goodPlayerDoc nowA p ∈
        upsertById PlayerDoc._id (goodPlayerDoc nowA p) db.players
      exact upsertById_mem_self PlayerDoc._id (goodPlayerDoc nowA p) db.players
    · rw [upsertGoodPlayers_cons]
      exact ih _ p h2

theorem filter_beq_of_count_one :
    ∀ (ids : List Nat) (b : Nat), ids.count b = 1 →
      ids.filter (fun p => p == b) = [b] := by
  intro ids b
  induction ids with
  | nil => intro h; simp [List.count_nil] at h
  | cons q rest ih =>
    intro h
    rw [List.count_cons] at h
    by_cases hq : q = b
    · subst hq
      have hz : rest.count q = 0 := by simp at h; omega
      have hfil : rest.filter (fun p => p == q) = [] := by
        rw [List.filter_eq_nil_iff]
        intro x hx hbx
        simp only [beq_iff_eq] at hbx
        exact absurd (hbx ▸ hx) (List.count_eq_zero.mp hz)
      simp [List.filter_cons, hfil]
    · have hne : (q == b) = false := by simp [hq]
      have h1 : rest.count b = 1 := by
        simp [hne] at h
        exact h
      simp [List.filter_cons, hne, ih h1]

/-- The full outcome of `processTeamSquad` under `goodClient`: the capped
prefix of the roster is processed, the good entries are upserted in order,
the bad entries produce one 404 error each. -/
theorem processTeamSquad_goodClient (teamId maxP : Nat) (bad : Nat → Bool)
    (ids : List Nat) (nowA : Nat) (nowD : Int)
    (h0 : ∀ p ∈ ids, p ≠ 0) (hne : ids ≠ []) :
    processTeamSquad (goodClient (ids.map mkEntry) bad) teamId maxP nowA nowD emptyDB =
      (upsertSquad nowA
        { teamId := toString teamId
          playerIds := some
            (((ids.take (min ids.length maxP)).filter (fun p => !bad p)).map playerDocIdOf) }
        (upsertGoodPlayers nowA
          ((ids.take (min ids.length maxP)).filter (fun p => !bad p)) emptyDB),
       ⟨((ids.take (min ids.length maxP)).filter (fun p => !bad p)).length,
        ((ids.take (min ids.length maxP)).filter bad).map
          (fun p => .playerErr p "API Error 404: Not Found")⟩) := by
  have hlen : (ids.map mkEntry).length ≠ 0 := by
    simpa using fun hl => hne (List.length_eq_zero.mp hl)
  have htake : (ids.map mkEntry).take (min ids.length maxP) =
      (ids.take (min ids.length maxP)).map mkEntry :=
    (List.map_take mkEntry ids _).symm
  have h0' : ∀ p ∈ ids.take (min ids.length maxP), p ≠ 0 :=
    fun p hp => h0 p (List.take_subset _ _ hp)
  have hloop := processEntries_goodClient (ids.map mkEntry) bad nowA nowD
    (ids.take (min ids.length maxP)) ⟨emptyDB, [], 0, []⟩ h0'
  have hgts : (goodClient (ids.map mkEntry) bad).getTeamSquad = .ok (ids.map mkEntry) := rfl
  have hgt : (goodClient (ids.map mkEntry) bad).getTeam = .ok none := rfl
  have hphase : teamPhase nowA none emptyDB = emptyDB := rfl
  simp only [processTeamSquad, hgts, hgt]
  rw [if_neg hlen]
  simp only [List.length_map, hphase, htake, hloop]
  simp

/-- Claim C5: when exactly one player of the roster 404s and everything else
succeeds, the error list holds exactly one entry for that player id, the
persisted squad document lists every other roster id in order (missing only
the failed one), and every other player document is still upserted. -/
theorem claim_C5_player_404_isolated (teamId badId : Nat) (ids : List Nat)
    (nowA : Nat) (nowD : Int)
    (h0 : ∀ p ∈ ids, p ≠ 0) (hb : ids.count badId = 1) (hlen : ids.length ≤ 24) :
    (processTeamSquad (goodClient (ids.map mkEntry) (fun p => p == badId))
        teamId 24 nowA nowD emptyDB).2.errors =
      [.playerErr badId "API Error 404: Not Found"] ∧
    (processTeamSquad (goodClient (ids.map mkEntry) (fun p => p == badId))
        teamId 24 nowA nowD emptyDB).1.squads =
      [mkSquadDoc nowA
        { teamId := toString teamId
          playerIds := some ((ids.filter (fun p => !(p == badId))).map playerDocIdOf) }] ∧
    (∀ p ∈ ids, p ≠ badId →
      goodPlayerDoc nowA p ∈
        (processTeamSquad (goodClient (ids.map mkEntry) (fun p => p == badId))
            teamId 24 nowA nowD emptyDB).1.players) := by
  have hne : ids ≠ [] := by
    intro h
    rw [h] at hb
    simp [List.count_nil] at hb
  have hmin : min ids.length 24 = ids.length := min_eq_left hlen
  have hmain := processTeamSquad_goodClient teamId 24 (fun p => p == badId)
    ids nowA nowD h0 hne
  rw [hmin, List.take_length ids] at hmain
  have hfilbad : ids.filter (fun p => p == badId) = [badId] :=
    filter_beq_of_count_one ids badId hb
  have hsqu : ∀ (s : SquadInput) (d : DB), (upsertSquad nowA s d).squads =
      upsertById SquadDoc._id (mkSquadDoc nowA s) d.squads := fun _ _ => rfl
  refine ⟨?_, ?_, ?_⟩
  · rw [hmain, hfilbad]
    rfl
  · rw [hmain, hsqu, upsertGoodPlayers_squads]
    rfl
  · intro p hp hpb
    rw [hmain, upsertSquad_players]
    apply upsertGoodPlayers_mem
    refine List.mem_filter.mpr ⟨hp, ?_⟩
    simp [hpb]

/-- Witness for claim C5: a three-player roster where player 2 404s. -/
theorem claim_C5_player_404_isolated_witness :
    (processTeamSquad (goodClient ([1, 2, 3].map mkEntry) (fun p => p == 2))
        9 24 0 0 emptyDB).2.errors =
      [.playerErr 2 "API Error 404: Not Found"] ∧
    (processTeamSquad (goodClient ([1, 2, 3].map mkEntry) (fun p => p == 2))
        9 24 0 0 emptyDB).1.squads =
      [mkSquadDoc 0
        { teamId := toString 9
          playerIds := some (([1, 2, 3].filter (fun p => !(p == 2))).map playerDocIdOf) }] ∧
    goodPlayerDoc 0 1 ∈
      (processTeamSquad (goodClient ([1, 2, 3].map mkEntry) (fun p => p == 2))
          9 24 0 0 emptyDB).1.players := by
  obtain ⟨h1, h2, h3⟩ := claim_C5_player_404_isolated 9 2 [1, 2, 3] 0 0
    (by decide) (by decide) (by decide)
  exact ⟨h1, h2, h3 1 (by decide) (by decide)⟩

/-- Claim C6: every squad document `processTeamSquad` writes has at most the
configured maximum of player ids, and a 30-entry roster with cap 24 and all
fetches succeeding persists exactly the first 24 ids in roster order. -/
theorem claim_C6_squad_cap :
    (∀ (client : Client) (teamId maxP nowA : Nat) (nowD : Int) (db : DB) (sq : SquadDoc),
        sq ∈ (processTeamSquad client teamId maxP nowA nowD db).1.squads →
        sq ∈ db.squads ∨ sq.playerIds.length ≤ maxP) ∧
    (∀ (teamId nowA : Nat) (nowD : Int) (ids : List Nat),
        (∀ p ∈ ids, p ≠ 0) → ids.length = 30 →
        (processTeamSquad (goodClient (ids.map mkEntry) (fun _ => false))
            teamId 24 nowA nowD emptyDB).1.squads =
          [mkSquadDoc nowA
            { teamId := toString teamId
              playerIds := some ((ids.take 24).map playerDocIdOf) }] ∧
        ((ids.take 24).map playerDocIdOf).length = 24) := by
  constructor
  · intro client teamId maxP nowA nowD db sq hsq
    cases hts : client.getTeamSquad with
    | error e =>
      simp only [processTeamSquad, hts] at hsq
      exact Or.inl hsq
    | ok entries =>
      simp only [processTeamSquad, hts] at hsq
      by_cases hl : entries.length = 0
      · rw [if_pos hl] at hsq
        exact Or.inl hsq
      · rw [if_neg hl] at hsq
        cases hteam : client.getTeam with
        | error e =>
          simp only [hteam] at hsq
          exact Or.inl hsq
        | ok teamOpt =>
          simp only [hteam] at hsq
          rw [show ∀ (s : SquadInput) (d : DB), (upsertSquad nowA s d).squads =
              upsertById SquadDoc._id (mkSquadDoc nowA s) d.squads from fun _ _ => rfl]
            at hsq
          rcases mem_upsertById _ _ _ _ hsq with heq | hin
          · right
            have hfin := processEntries_playerIds_le client nowA nowD
              (entries.take (min entries.length maxP))
              ⟨teamPhase nowA teamOpt db, [], 0, []⟩
            have htl : (entries.take (min entries.length maxP)).length ≤ maxP :=
              le_trans (List.length_take_le _ _) (min_le_right _ _)
            rw [heq]
            simp only [mkSquadDoc, Option.getD]
            simp only [LoopState.playerIds, List.length_nil] at hfin
            omega
          · left
            have h2 : (processEntries client nowA nowD
                (entries.take (min entries.length maxP))
                ⟨teamPhase nowA teamOpt db, [], 0, []⟩).db.squads = db.squads := by
              rw [processEntries_db_squads]
              exact teamPhase_squads nowA teamOpt db
            rw [h2] at hin
            exact hin
  · intro teamId nowA nowD ids h0 hlen30
    have hne : ids ≠ [] := by
      intro h
      rw [h] at hlen30
      simp at hlen30
    have hmin : min ids.length 24 = 24 := by rw [hlen30]; decide
    have hmain := processTeamSquad_goodClient teamId 24 (fun _ => false)
      ids nowA nowD h0 hne
    rw [hmin] at hmain
    simp only [Bool.not_false, List.filter_true, List.filter_false, List.map_nil]
      at hmain
    have hsqu : ∀ (s : SquadInput) (d : DB), (upsertSquad nowA s d).squads =
        upsertById SquadDoc._id (mkSquadDoc nowA s) d.squads := fun _ _ => rfl
    constructor
    · rw [hmain, hsqu, upsertGoodPlayers_squads]
      rfl
    · rw [List.length_map, List.length_take, hlen30]
      decide

/-- Witness for claim C6: the roster 1..30 with cap 24. -/
theorem claim_C6_squad_cap_witness :
    (((List.range' 1 30).take 24).map playerDocIdOf).length = 24 ∧
    (processTeamSquad (goodClient ((List.range' 1 30).map mkEntry) (fun _ => false))
        9 24 0 0 emptyDB).1.squads =
      [mkSquadDoc 0
        { teamId := toString 9
          playerIds := some (((List.range' 1 30).take 24).map playerDocIdOf) }] ∧
    (mkSquadDoc 0
        { teamId := toString 9
          playerIds := some (((List.range' 1 30).take 24).map playerDocIdOf) } ∈
        (emptyDB : DB).squads ∨
      (mkSquadDoc 0
        { teamId := toString 9
          playerIds := some (((List.range' 1 30).take 24).map playerDocIdOf) }).playerIds.length ≤ 24) := by
  obtain ⟨hgen, hconc⟩ := claim_C6_squad_cap
  obtain ⟨hsq, hlen⟩ := hconc 9 0 0 (List.range' 1 30) (by decide) (by decide)
  refine ⟨hlen, hsq, ?_⟩
  apply hgen (goodClient ((List.range' 1 30).map mkEntry) (fun _ => false)) 9 24 0 0 emptyDB
  rw [hsq]
  exact List.mem_singleton.mpr rfl

/-- Claim C10: a squad entry whose player fetch completes with a missing
payload is skipped silently by the loop body: the state is unchanged, so no
player document is upserted, no identifier is pushed, and no error is
recorded. -/
theorem claim_C10_missing_payload_skipped (client : Client) (nowA : Nat) (nowD : Int)
    (st : LoopState) (entry : SquadEntry) (p : Nat)
    (hpid : entry.player_id = some p) (hp0 : p ≠ 0)
    (hfetch : entry.player = none ∨
      ∃ pl, entry.player = some pl ∧ natTruthy pl.nationality_id = false)
    (hmiss : client.getPlayer p = .ok none) :
    stepEntry client nowA nowD st entry = st := by
  have htr : natTruthy entry.player_id = true := by
    rw [hpid]; simp [natTruthy, hp0]
  have htry : tryProcessPlayer client nowA nowD st.db p entry = .ok none := by
    rcases hfetch with hnone | ⟨pl, hpl, hnat⟩
    · simp [tryProcessPlayer, fetchPlayer, hnone, hmiss]
    · simp [tryProcessPlayer, fetchPlayer, hpl, hnat, hmiss]
  simp [stepEntry, htr, hpid, htry]

/-- A squad entry with a player id but no included player payload. -/
def entryNoPayload : SquadEntry := { player_id := some 42 }

/-- A client whose player endpoint answers with an empty data payload. -/
def clientNoData : Client :=
  ⟨.ok [entryNoPayload], .ok none, fun _ => .ok none, fun _ => .ok none⟩

/-- Witness for claim C10 at a concrete entry and client. -/
theorem claim_C10_missing_payload_skipped_witness :
    stepEntry clientNoData 0 0 ⟨emptyDB, [], 0, []⟩ entryNoPayload = ⟨emptyDB, [], 0, []⟩ :=
  claim_C10_missing_payload_skipped clientNoData 0 0 ⟨emptyDB, [], 0, []⟩
    entryNoPayload 42 rfl (by decide) (Or.inl rfl) rfl

/-- A client every endpoint of which rejects. -/
def failingClient : Client :=
  ⟨.error "boom", .error "boom", fun _ => .error "boom", fun _ => .error "boom"⟩

/-- Counterexample to claim C7: a team whose squad fetch fails writes no
squad document and lands in the error list, yet `main` still counts it in
both `teamsProcessed` and `squadsUpserted`. -/
theorem claim_C7_counterexample :
    (runMain (fun _ => failingClient) 24 0 0 [5] emptyDB).2 =
      { teamsProcessed := 1, playersUpserted := 0, squadsUpserted := 1,
        errors := [.teamErr 5 "boom"] } ∧
    (runMain (fun _ => failingClient) 24 0 0 [5] emptyDB).1.squads = [] ∧
    (1 : Nat) ≠ 0 := by
  refine ⟨rfl, rfl, by decide⟩

/-- Claim C7 (amended): when the squad fetch fails, or the team fetch
itself fails after a non-empty squad response, the store is left untouched
(in particular no squad document is written) and the team is recorded in
the run's error list; however the run summary counts every requested team
unconditionally, so `teamsProcessed` and `squadsUpserted` both equal the
number of requested teams whether or not a team failed. -/
theorem claim_C7_amended :
    (∀ (client : Client) (teamId maxP nowA : Nat) (nowD : Int) (db : DB) (e : String),
        client.getTeamSquad = .error e →
        processTeamSquad client teamId maxP nowA nowD db =
          (db, ⟨0, [.teamErr teamId e]⟩)) ∧
    (∀ (client : Client) (teamId maxP nowA : Nat) (nowD : Int) (db : DB)
        (entries : List SquadEntry) (e : String),
        client.getTeamSquad = .ok entries → entries ≠ [] →
        client.getTeam = .error e →
        processTeamSquad client teamId maxP nowA nowD db =
          (db, ⟨0, [.teamErr teamId e]⟩)) ∧
    (∀ (clients : Nat → Client) (maxP nowA : Nat) (nowD : Int)
        (teamIds : List Nat) (db : DB),
        (runMain clients maxP nowA nowD teamIds db).2.teamsProcessed = teamIds.length ∧
        (runMain clients maxP nowA nowD teamIds db).2.squadsUpserted = teamIds.length) := by
  refine ⟨?_, ?_, ?_⟩
  · intro client teamId maxP nowA nowD db e h
    simp [processTeamSquad, h]
  · intro client teamId maxP nowA nowD db entries e hts hne hteam
    have hl : ¬(entries.length = 0) := fun h => hne (List.length_eq_zero.mp h)
    simp only [processTeamSquad, hts]
    rw [if_neg hl]
    simp [hteam]
  · intro clients maxP nowA nowD teamIds db
    have key : ∀ (l : List Nat) (acc : DB × Summary),
        (l.foldl (runMainStep clients maxP nowA nowD) acc).2.teamsProcessed =
          acc.2.teamsProcessed + l.length ∧
        (l.foldl (runMainStep clients maxP nowA nowD) acc).2.squadsUpserted =
          acc.2.squadsUpserted + l.length := by
      intro l
      induction l with
      | nil => intro acc; simp
      | cons t ts ih =>
        intro acc
        rw [List.foldl_cons]
        obtain ⟨h1, h2⟩ := ih (runMainStep clients maxP nowA nowD acc t)
        have hstep1 : (runMainStep clients maxP nowA nowD acc t).2.teamsProcessed =
            acc.2.teamsProcessed + 1 := rfl
        have hstep2 : (runMainStep clients maxP nowA nowD acc t).2.squadsUpserted =
            acc.2.squadsUpserted + 1 := rfl
        rw [List.length_cons]
        constructor
        · rw [h1, hstep1]; omega
        · rw [h2, hstep2]; omega
    obtain ⟨h1, h2⟩ := key teamIds (db, ⟨0, 0, 0, []⟩)
    rw [runMain]
    constructor
    · rw [h1]; simp
    · rw [h2]; simp

/-- A client whose squad fetch succeeds but whose team fetch rejects. -/
def teamFetchFailClient : Client :=
  ⟨.ok [entryNoPayload], .error "boom", fun _ => .ok none, fun _ => .ok none⟩

/-- Witness for the amended claim C7 at concrete failing runs: a failing
squad fetch, a failing team fetch, and the unconditional counters. -/
theorem claim_C7_amended_witness :
    processTeamSquad failingClient 5 24 0 0 emptyDB = (emptyDB, ⟨0, [.teamErr 5 "boom"]⟩) ∧
    processTeamSquad teamFetchFailClient 5 24 0 0 emptyDB =
      (emptyDB, ⟨0, [.teamErr 5 "boom"]⟩) ∧
    (runMain (fun _ => failingClient) 24 0 0 [5] emptyDB).2.teamsProcessed = 1 ∧
    (runMain (fun _ => failingClient) 24 0 0 [5] emptyDB).2.squadsUpserted = 1 := by
  obtain ⟨h1, h2, h3⟩ := claim_C7_amended
  exact ⟨h1 failingClient 5 24 0 0 emptyDB "boom" rfl,
    h2 teamFetchFailClient 5 24 0 0 emptyDB [entryNoPayload] "boom" rfl
      (by decide) rfl,
    (h3 (fun _ => failingClient) 24 0 0 [5] emptyDB).1,
    (h3 (fun _ => failingClient) 24 0 0 [5] emptyDB).2⟩

end WCAlbum
